import Mathlib

/-!
Verification development for the WhatsApp bulk-messaging gateway
(`backend/server.js` and `backend/services/messageLogger.js`).

The JavaScript source is shallowly embedded: strings are modelled as
`List Char`, JavaScript exceptions as `Except String`, and the stateful
client/queue as explicit state machines.  Every definition is translated
from the source file it names in its doc comment.
-/

set_option maxRecDepth 8000
set_option maxHeartbeats 1600000

namespace WhatsappBulk

/-- One value of the `countryCodes` table (`server.js` lines 704-788).
`subLen` is the `length` field (expected digits after the dialing code);
`country` is the `country` field, which is absent (`none`) for the key `1`
(that entry only has a `countries` array, so `.country` reads `undefined`). -/
structure CodeInfo where
  subLen : Nat
  country : Option String
deriving Repr, DecidableEq

/-- The `countryCodes` table from `server.js` lines 704-788, as an association
list.  JavaScript enumerates the integer-like keys of an object literal in
ascending numeric order, so the list is stated in that order (this matters for
the stable sort in `sortedCodes`). -/
def countryCodes : List (List Char × CodeInfo) :=
  [ (['1'], ⟨10, none⟩),
    (['7'], ⟨10, some "Russia"⟩),
    (['2','0'], ⟨10, some "Egypt"⟩),
    (['2','7'], ⟨9, some "South Africa"⟩),
    (['3','0'], ⟨10, some "Greece"⟩),
    (['3','1'], ⟨9, some "Netherlands"⟩),
    (['3','2'], ⟨9, some "Belgium"⟩),
    (['3','3'], ⟨9, some "France"⟩),
    (['3','4'], ⟨9, some "Spain"⟩),
    (['3','9'], ⟨10, some "Italy"⟩),
    (['4','1'], ⟨9, some "Switzerland"⟩),
    (['4','3'], ⟨10, some "Austria"⟩),
    (['4','4'], ⟨10, some "UK"⟩),
    (['4','5'], ⟨8, some "Denmark"⟩),
    (['4','6'], ⟨9, some "Sweden"⟩),
    (['4','7'], ⟨8, some "Norway"⟩),
    (['4','8'], ⟨9, some "Poland"⟩),
    (['4','9'], ⟨11, some "Germany"⟩),
    (['5','1'], ⟨9, some "Peru"⟩),
    (['5','2'], ⟨10, some "Mexico"⟩),
    (['5','4'], ⟨10, some "Argentina"⟩),
    (['5','5'], ⟨11, some "Brazil"⟩),
    (['5','6'], ⟨9, some "Chile"⟩),
    (['5','7'], ⟨10, some "Colombia"⟩),
    (['5','8'], ⟨10, some "Venezuela"⟩),
    (['6','0'], ⟨9, some "Malaysia"⟩),
    (['6','1'], ⟨9, some "Australia"⟩),
    (['6','2'], ⟨10, some "Indonesia"⟩),
    (['6','3'], ⟨10, some "Philippines"⟩),
    (['6','4'], ⟨9, some "New Zealand"⟩),
    (['6','5'], ⟨8, some "Singapore"⟩),
    (['6','6'], ⟨9, some "Thailand"⟩),
    (['8','1'], ⟨10, some "Japan"⟩),
    (['8','2'], ⟨10, some "South Korea"⟩),
    (['8','4'], ⟨9, some "Vietnam"⟩),
    (['8','6'], ⟨11, some "China"⟩),
    (['9','1'], ⟨10, some "India"⟩),
    (['9','2'], ⟨10, some "Pakistan"⟩),
    (['9','4'], ⟨9, some "Sri Lanka"⟩),
    (['9','5'], ⟨10, some "Myanmar"⟩),
    (['2','1','2'], ⟨9, some "Morocco"⟩),
    (['2','1','6'], ⟨8, some "Tunisia"⟩),
    (['2','3','4'], ⟨10, some "Nigeria"⟩),
    (['2','5','1'], ⟨9, some "Ethiopia"⟩),
    (['2','5','4'], ⟨9, some "Kenya"⟩),
    (['3','5','1'], ⟨9, some "Portugal"⟩),
    (['3','5','8'], ⟨10, some "Finland"⟩),
    (['3','8','0'], ⟨9, some "Ukraine"⟩),
    (['5','9','1'], ⟨8, some "Bolivia"⟩),
    (['5','9','3'], ⟨9, some "Ecuador"⟩),
    (['5','9','5'], ⟨9, some "Paraguay"⟩),
    (['5','9','8'], ⟨8, some "Uruguay"⟩),
    (['8','5','5'], ⟨8, some "Cambodia"⟩),
    (['8','5','6'], ⟨10, some "Laos"⟩),
    (['8','8','0'], ⟨10, some "Bangladesh"⟩),
    (['9','6','1'], ⟨8, some "Lebanon"⟩),
    (['9','6','2'], ⟨9, some "Jordan"⟩),
    (['9','6','6'], ⟨9, some "Saudi Arabia"⟩),
    (['9','6','8'], ⟨8, some "Oman"⟩),
    (['9','7','1'], ⟨9, some "UAE"⟩),
    (['9','7','2'], ⟨9, some "Israel"⟩),
    (['9','7','3'], ⟨8, some "Bahrain"⟩),
    (['9','7','4'], ⟨8, some "Qatar"⟩),
    (['9','7','7'], ⟨10, some "Nepal"⟩),
    (['1','7','5','8'], ⟨7, some "Saint Lucia"⟩),
    (['1','8','6','8'], ⟨7, some "Trinidad and Tobago"⟩),
    (['1','8','6','9'], ⟨7, some "Saint Kitts and Nevis"⟩),
    (['1','8','7','6'], ⟨7, some "Jamaica"⟩) ]

/-- Stable descending-by-key-length insertion used to embed the JavaScript
`sort((a, b) => b.length - a.length)` of `server.js` lines 808-810: an element
is inserted before the first later element whose key is not longer, which
together with `List.foldr` preserves the relative order of equal-length keys
exactly as V8's stable `Array.prototype.sort` does. -/
def insertByLen (x : List Char × CodeInfo) :
    List (List Char × CodeInfo) → List (List Char × CodeInfo)
  | [] => [x]
  | y :: ys => if y.1.length ≤ x.1.length then x :: y :: ys else y :: insertByLen x ys

/-- `sortedCodes` from `server.js` lines 808-810: the table keys sorted by
string length, longest first, stably. -/
def sortedCodes : List (List Char × CodeInfo) :=
  countryCodes.foldr insertByLen []

/-- `server.js` line 794: `phoneNumber.toString().replace(/[^\d+]/g, "")`.
Note the character class keeps every digit AND every `+`, wherever it occurs. -/
def keepDigitsPlus (raw : List Char) : List Char :=
  raw.filter (fun c => c.isDigit || c == '+')

/-- `server.js` line 800: `cleaned.replace(/^\+/, "")` — removes at most one
leading `+`. -/
def dropLeadPlus (l : List Char) : List Char :=
  match l with
  | [] => []
  | c :: rest => bif c == '+' then rest else c :: rest

/-- `server.js` lines 794-800: strip to digits-and-plus, drop leading zeros
(`replace(/^0+/, "")`), then drop a single leading `+` — in that order. -/
def cleanPhone (raw : List Char) : List Char :=
  dropLeadPlus ((keepDigitsPlus raw).dropWhile (fun c => c == '0'))

/-- Outcome of the country-code loop of `server.js` lines 816-834. -/
inductive ScanResult where
  | noCode : ScanResult
  | badLen (code : List Char) (info : CodeInfo) : ScanResult
  | okCode (code : List Char) : ScanResult
deriving Repr, DecidableEq

/-- The `for (let code of sortedCodes)` loop of `server.js` lines 816-834:
take the first code that is a prefix of the cleaned number (`startsWith`);
if the remaining digits do not have exactly the expected length, throw
(`badLen`), otherwise record the matched code and break (`okCode`);
if no code matches, fall through (`noCode`). -/
def scanCodes : List (List Char × CodeInfo) → List Char → ScanResult
  | [], _ => .noCode
  | (code, info) :: rest, cleaned =>
    bif code.isPrefixOf cleaned then
      bif (cleaned.drop code.length).length == info.subLen then .okCode code
      else .badLen code info
    else scanCodes rest cleaned

/-- Successful result of `formatPhoneNumber`: the returned `cleaned` string
(`server.js` line 857) together with the `matchedCode` local variable
(line 814; `[]` when no code was recorded). -/
structure FormatOk where
  cleaned : List Char
  matchedCode : List Char
deriving Repr, DecidableEq

/-- The country label used in the length error, `server.js` line 828:
`countryCodes[code].country || code`. -/
def codeLabel (code : List Char) (info : CodeInfo) : String :=
  match info.country with
  | some c => c
  | none => String.mk code

/-- The error thrown at `server.js` lines 826-830. -/
def badLenMsg (code : List Char) (info : CodeInfo) : String :=
  "Invalid number length for " ++ codeLabel code info ++ ". Expected "
    ++ toString info.subLen ++ " digits after country code."

/-- The error thrown at `server.js` lines 844-846. -/
def lengthErrMsg : String :=
  "Invalid phone number length (should be between 10 and 15 digits)"

/-- `server.js` lines 807-857: everything after the cleaning steps — the
country-code loop, the post-loop 10-digit fallback (lines 836-840) and the
final 10..15 length validation (lines 842-847). -/
def formatScan (c1 : List Char) : Except String FormatOk :=
  match scanCodes sortedCodes c1 with
  | .badLen code info => .error (badLenMsg code info)
  | .okCode code =>
      bif decide (c1.length < 10) || decide (15 < c1.length) then .error lengthErrMsg
      else .ok ⟨c1, code⟩
  | .noCode =>
      bif c1.length == 10 then
        (bif decide (('1' :: c1).length < 10) || decide (15 < ('1' :: c1).length) then
          .error lengthErrMsg
         else .ok ⟨'1' :: c1, ['1']⟩)
      else
        (bif decide (c1.length < 10) || decide (15 < c1.length) then .error lengthErrMsg
         else .ok ⟨c1, []⟩)

/-- `formatPhoneNumber` body (`server.js` lines 791-857): clean the input,
apply the pre-loop US/Canada special case of lines 802-805 (`length === 10 &&
!startsWith("1")` prepends `"1"`), then scan and validate. -/
def formatInner (raw : List Char) : Except String FormatOk :=
  formatScan
    (bif (cleanPhone raw).length == 10 && !(['1'].isPrefixOf (cleanPhone raw)) then
      '1' :: cleanPhone raw
     else cleanPhone raw)

/-- `formatPhoneNumber` (`server.js` lines 791-862), including the catch
wrapper of lines 858-861 that rethrows every internal error as
`Invalid phone number format: <message>`. -/
def formatPhoneNumber (raw : List Char) : Except String FormatOk :=
  (formatInner raw).mapError (fun m => "Invalid phone number format: " ++ m)

/-- Evaluating the country-code loop on any string that begins with `'1'`:
only the four Caribbean codes and `"1"` itself start with `'1'`, every other
entry of `sortedCodes` fails its `startsWith` test outright. -/
theorem scanCodes_one_cons (d : List Char) :
    scanCodes sortedCodes ('1' :: d) =
      (bif List.isPrefixOf ['7','5','8'] d then
        (bif (d.drop 3).length == 7 then ScanResult.okCode ['1','7','5','8']
         else ScanResult.badLen ['1','7','5','8'] ⟨7, some "Saint Lucia"⟩)
      else bif List.isPrefixOf ['8','6','8'] d then
        (bif (d.drop 3).length == 7 then ScanResult.okCode ['1','8','6','8']
         else ScanResult.badLen ['1','8','6','8'] ⟨7, some "Trinidad and Tobago"⟩)
      else bif List.isPrefixOf ['8','6','9'] d then
        (bif (d.drop 3).length == 7 then ScanResult.okCode ['1','8','6','9']
         else ScanResult.badLen ['1','8','6','9'] ⟨7, some "Saint Kitts and Nevis"⟩)
      else bif List.isPrefixOf ['8','7','6'] d then
        (bif (d.drop 3).length == 7 then ScanResult.okCode ['1','8','7','6']
         else ScanResult.badLen ['1','8','7','6'] ⟨7, some "Jamaica"⟩)
      else bif d.length == 10 then ScanResult.okCode ['1']
      else ScanResult.badLen ['1'] ⟨10, none⟩) := by
  have h1 : List.isPrefixOf ['1'] ('1' :: d) = true := by
    simp [List.isPrefixOf]
  have htail : scanCodes [(['1'], ⟨10, none⟩), (['7'], ⟨10, some "Russia"⟩)] ('1' :: d)
      = (bif d.length == 10 then ScanResult.okCode ['1']
         else ScanResult.badLen ['1'] ⟨10, none⟩) := by
    simp only [scanCodes, h1, cond_true]
    rfl
  have hmain : scanCodes sortedCodes ('1' :: d) =
      (bif List.isPrefixOf ['7','5','8'] d then
        (bif (d.drop 3).length == 7 then ScanResult.okCode ['1','7','5','8']
         else ScanResult.badLen ['1','7','5','8'] ⟨7, some "Saint Lucia"⟩)
      else bif List.isPrefixOf ['8','6','8'] d then
        (bif (d.drop 3).length == 7 then ScanResult.okCode ['1','8','6','8']
         else ScanResult.badLen ['1','8','6','8'] ⟨7, some "Trinidad and Tobago"⟩)
      else bif List.isPrefixOf ['8','6','9'] d then
        (bif (d.drop 3).length == 7 then ScanResult.okCode ['1','8','6','9']
         else ScanResult.badLen ['1','8','6','9'] ⟨7, some "Saint Kitts and Nevis"⟩)
      else bif List.isPrefixOf ['8','7','6'] d then
        (bif (d.drop 3).length == 7 then ScanResult.okCode ['1','8','7','6']
         else ScanResult.badLen ['1','8','7','6'] ⟨7, some "Jamaica"⟩)
      else scanCodes [(['1'], ⟨10, none⟩), (['7'], ⟨10, some "Russia"⟩)] ('1' :: d)) := rfl
  rw [hmain, htail]

/-- Cleaning is the identity on all-digit strings with no leading zero. -/
theorem cleanPhone_of_digits (l : List Char) (hdig : l.all Char.isDigit = true)
    (h0 : l.head? ≠ some '0') : cleanPhone l = l := by
  have hfilter : keepDigitsPlus l = l := by
    unfold keepDigitsPlus
    rw [List.filter_eq_self]
    intro a ha
    have := List.all_eq_true.mp hdig a ha
    simp [this]
  cases l with
  | nil => rfl
  | cons c rest =>
    have hc : c.isDigit = true := List.all_eq_true.mp hdig c (by simp)
    have hc0 : (c == '0') = false := by
      simp only [List.head?] at h0
      simp only [beq_eq_false_iff_ne, ne_eq]
      intro h
      exact h0 (by rw [h])
    have hcp : (c == '+') = false := by
      simp only [beq_eq_false_iff_ne, ne_eq]
      intro h
      rw [h] at hc
      simp [Char.isDigit] at hc
    unfold cleanPhone
    rw [hfilter, List.dropWhile_cons, hc0]
    simp only [Bool.false_eq_true, if_false]
    show (bif c == '+' then rest else c :: rest) = c :: rest
    rw [hcp, cond_false]

/-- C1: for every raw input that cleans to a digit string of length exactly 10
not already starting with the default domestic country code `"1"` (the
hardwired constant of `server.js` lines 802-805), `formatPhoneNumber` prepends
exactly that code and returns a canonical string whose length (11) equals the
matched table code's length plus that country's expected subscriber length. -/
theorem c1_default_code_prepended (raw : List Char)
    (hdig : (cleanPhone raw).all Char.isDigit = true)
    (hlen : (cleanPhone raw).length = 10)
    (h1 : List.isPrefixOf ['1'] (cleanPhone raw) = false) :
    ∃ code info, (code, info) ∈ countryCodes ∧
      formatPhoneNumber raw = .ok ⟨'1' :: cleanPhone raw, code⟩ ∧
      ('1' :: cleanPhone raw).length = code.length + info.subLen := by
  set d := cleanPhone raw with hd
  have hcond : (d.length == 10 && !(List.isPrefixOf ['1'] d)) = true := by
    simp [hlen, h1]
  have hinner : formatInner raw = formatScan ('1' :: d) := by
    unfold formatInner
    rw [← hd, hcond, cond_true]
  have hlen1 : ('1' :: d).length = 11 := by simp [hlen]
  have hrange : (decide (('1' :: d).length < 10) || decide (15 < ('1' :: d).length)) = false := by
    rw [hlen1]
    decide
  have hscan := scanCodes_one_cons d
  have hfmt : ∀ code : List Char, scanCodes sortedCodes ('1' :: d) = .okCode code →
      formatPhoneNumber raw = .ok ⟨'1' :: d, code⟩ := by
    intro code hc
    unfold formatPhoneNumber
    rw [hinner]
    unfold formatScan
    rw [hc, hrange, cond_false]
    rfl
  have hdrop : ((d.drop 3).length == 7) = true := by
    rw [List.length_drop, hlen]
    decide
  cases h758 : List.isPrefixOf ['7','5','8'] d with
  | true =>
    rw [h758, cond_true, hdrop, cond_true] at hscan
    exact ⟨['1','7','5','8'], ⟨7, some "Saint Lucia"⟩, by decide, hfmt _ hscan, by simp [hlen]⟩
  | false =>
    rw [h758, cond_false] at hscan
    cases h868 : List.isPrefixOf ['8','6','8'] d with
    | true =>
      rw [h868, cond_true, hdrop, cond_true] at hscan
      exact ⟨['1','8','6','8'], ⟨7, some "Trinidad and Tobago"⟩, by decide, hfmt _ hscan,
        by simp [hlen]⟩
    | false =>
      rw [h868, cond_false] at hscan
      cases h869 : List.isPrefixOf ['8','6','9'] d with
      | true =>
        rw [h869, cond_true, hdrop, cond_true] at hscan
        exact ⟨['1','8','6','9'], ⟨7, some "Saint Kitts and Nevis"⟩, by decide, hfmt _ hscan,
          by simp [hlen]⟩
      | false =>
        rw [h869, cond_false] at hscan
        cases h876 : List.isPrefixOf ['8','7','6'] d with
        | true =>
          rw [h876, cond_true, hdrop, cond_true] at hscan
          exact ⟨['1','8','7','6'], ⟨7, some "Jamaica"⟩, by decide, hfmt _ hscan,
            by simp [hlen]⟩
        | false =>
          rw [h876, cond_false] at hscan
          have h10 : (d.length == 10) = true := by simp [hlen]
          rw [h10, cond_true] at hscan
          exact ⟨['1'], ⟨10, none⟩, by decide, hfmt _ hscan, by simp [hlen]⟩

/-- Witness for C1 at the spec's own example input `"9841234567"`. -/
theorem c1_default_code_prepended_witness :
    ∃ code info, (code, info) ∈ countryCodes ∧
      formatPhoneNumber ("9841234567".toList) =
        .ok ⟨'1' :: cleanPhone ("9841234567".toList), code⟩ ∧
      ('1' :: cleanPhone ("9841234567".toList)).length = code.length + info.subLen :=
  c1_default_code_prepended ("9841234567".toList) (by decide) (by decide) (by decide)

/-- C3 (evidence of a code bug): the claimed canonical-form invariant fails.
`"++1234567890"` is accepted with canonical `"+1234567890"`, which contains a
`+` (the cleaning regex `[^\d+]` of `server.js` line 794 keeps every `+`, and
line 800 strips only one leading `+`, contradicting the comment "Remove all
non-numeric characters"); `"+0123456789012"` is accepted with canonical
`"0123456789012"`, which has a leading zero (line 797 strips zeros before the
`+` is removed, contradicting the comment "Remove any leading zeros"). -/
theorem c3_canonical_invariant_violated :
    (formatPhoneNumber ("++1234567890".toList) = .ok ⟨"+1234567890".toList, []⟩ ∧
      ("+1234567890".toList).all Char.isDigit = false) ∧
    (formatPhoneNumber ("+0123456789012".toList) = .ok ⟨"0123456789012".toList, []⟩ ∧
      ("0123456789012".toList).head? = some '0') :=
  ⟨⟨rfl, by decide⟩, ⟨rfl, rfl⟩⟩

/-- Exhaustive check over the `countryCodes` table: the only pairs of distinct
codes where one is a string prefix of the other are `"1"` against the four
Caribbean codes, all of which expect 7 subscriber digits. -/
theorem countryCodes_overlap_enum : ∀ p ∈ countryCodes, ∀ q ∈ countryCodes,
    p.1 ≠ q.1 → p.1.isPrefixOf q.1 = true →
    p.1 = ['1'] ∧ q.2.subLen = 7 ∧
      (q.1 = ['1','7','5','8'] ∨ q.1 = ['1','8','6','8'] ∨
       q.1 = ['1','8','6','9'] ∨ q.1 = ['1','8','7','6']) := by decide

/-- `isPrefixOf` holds on an appended extension of the pattern itself. -/
theorem isPrefixOf_append_self (p s : List Char) : List.isPrefixOf p (p ++ s) = true := by
  induction p with
  | nil => simp [List.isPrefixOf]
  | cons c rest ih => simpa [List.isPrefixOf] using ih

/-- C4: for every pair of distinct table codes where one is a string prefix of
the other, every cleaned number consisting of the longer code followed by
exactly that country's expected subscriber digits resolves to the longer
code, never the shorter one. -/
theorem c4_longest_code_wins (c1 c2 : List Char) (i1 i2 : CodeInfo) (s : List Char)
    (h1 : (c1, i1) ∈ countryCodes) (h2 : (c2, i2) ∈ countryCodes)
    (hne : c1 ≠ c2) (hpre : c1.isPrefixOf c2 = true)
    (hs : s.all Char.isDigit = true) (hslen : s.length = i2.subLen) :
    formatPhoneNumber (c2 ++ s) = .ok ⟨c2 ++ s, c2⟩ := by
  obtain ⟨-, hsub, hc2⟩ := countryCodes_overlap_enum (c1, i1) h1 (c2, i2) h2 hne hpre
  rw [hsub] at hslen
  have assemble : ∀ raw code : List Char,
      formatInner raw = formatScan raw → raw.length = 11 →
      scanCodes sortedCodes raw = .okCode code →
      formatPhoneNumber raw = .ok ⟨raw, code⟩ := by
    intro raw code hinner hlen11 hscan
    have hrange : (decide (raw.length < 10) || decide (15 < raw.length)) = false := by
      rw [hlen11]
      decide
    unfold formatPhoneNumber
    rw [hinner]
    unfold formatScan
    rw [hscan, hrange, cond_false]
    rfl
  have prep : ∀ t : List Char, t.length = 3 → ('1' :: t).all Char.isDigit = true →
      formatInner (('1' :: t) ++ s) = formatScan (('1' :: t) ++ s) ∧
      (('1' :: t) ++ s).length = 11 := by
    intro t htlen htdig
    have hdigits : (('1' :: t) ++ s).all Char.isDigit = true := by
      rw [List.all_append, htdig, hs]
      rfl
    have hclean : cleanPhone (('1' :: t) ++ s) = ('1' :: t) ++ s :=
      cleanPhone_of_digits _ hdigits (by simp)
    have hlen11 : (('1' :: t) ++ s).length = 11 := by
      simp [List.length_append, htlen, hslen]
    have hcond : ((('1' :: t) ++ s).length == 10
        && !(List.isPrefixOf ['1'] (('1' :: t) ++ s))) = false := by
      simp [hlen11]
    refine ⟨?_, hlen11⟩
    unfold formatInner
    rw [hclean, hcond, cond_false]
  rcases hc2 with h | h | h | h <;> subst h
  · obtain ⟨hinner, hlen11⟩ := prep ['7','5','8'] rfl (by decide)
    refine assemble _ _ hinner hlen11 ?_
    have hdrop : (((['7','5','8'] : List Char) ++ s).drop 3).length = s.length := rfl
    have hdroplen : ((((['7','5','8'] : List Char) ++ s).drop 3).length == 7) = true := by
      rw [hdrop, hslen]
      decide
    have h := scanCodes_one_cons (['7','5','8'] ++ s)
    rw [isPrefixOf_append_self ['7','5','8'] s, cond_true, hdroplen, cond_true] at h
    exact h
  · obtain ⟨hinner, hlen11⟩ := prep ['8','6','8'] rfl (by decide)
    refine assemble _ _ hinner hlen11 ?_
    have hdrop : (((['8','6','8'] : List Char) ++ s).drop 3).length = s.length := rfl
    have hdroplen : ((((['8','6','8'] : List Char) ++ s).drop 3).length == 7) = true := by
      rw [hdrop, hslen]
      decide
    have h := scanCodes_one_cons (['8','6','8'] ++ s)
    rw [show List.isPrefixOf ['7','5','8'] ((['8','6','8'] : List Char) ++ s) = false from rfl,
      cond_false, isPrefixOf_append_self ['8','6','8'] s, cond_true, hdroplen, cond_true] at h
    exact h
  · obtain ⟨hinner, hlen11⟩ := prep ['8','6','9'] rfl (by decide)
    refine assemble _ _ hinner hlen11 ?_
    have hdrop : (((['8','6','9'] : List Char) ++ s).drop 3).length = s.length := rfl
    have hdroplen : ((((['8','6','9'] : List Char) ++ s).drop 3).length == 7) = true := by
      rw [hdrop, hslen]
      decide
    have h := scanCodes_one_cons (['8','6','9'] ++ s)
    rw [show List.isPrefixOf ['7','5','8'] ((['8','6','9'] : List Char) ++ s) = false from rfl,
      cond_false,
      show List.isPrefixOf ['8','6','8'] ((['8','6','9'] : List Char) ++ s) = false from rfl,
      cond_false, isPrefixOf_append_self ['8','6','9'] s, cond_true, hdroplen, cond_true] at h
    exact h
  · obtain ⟨hinner, hlen11⟩ := prep ['8','7','6'] rfl (by decide)
    refine assemble _ _ hinner hlen11 ?_
    have hdrop : (((['8','7','6'] : List Char) ++ s).drop 3).length = s.length := rfl
    have hdroplen : ((((['8','7','6'] : List Char) ++ s).drop 3).length == 7) = true := by
      rw [hdrop, hslen]
      decide
    have h := scanCodes_one_cons (['8','7','6'] ++ s)
    rw [show List.isPrefixOf ['7','5','8'] ((['8','7','6'] : List Char) ++ s) = false from rfl,
      cond_false,
      show List.isPrefixOf ['8','6','8'] ((['8','7','6'] : List Char) ++ s) = false from rfl,
      cond_false,
      show List.isPrefixOf ['8','6','9'] ((['8','7','6'] : List Char) ++ s) = false from rfl,
      cond_false, isPrefixOf_append_self ['8','7','6'] s, cond_true, hdroplen, cond_true] at h
    exact h

/-- Witness for C4: a Jamaican number (`"1876"` + 7 digits) resolves to
Jamaica's 4-digit code, not to the US/Canada code `"1"` that is its prefix. -/
theorem c4_longest_code_wins_witness :
    formatPhoneNumber (['1','8','7','6'] ++ "1234567".toList) =
      .ok ⟨['1','8','7','6'] ++ "1234567".toList, ['1','8','7','6']⟩ :=
  c4_longest_code_wins ['1'] ['1','8','7','6'] ⟨10, none⟩ ⟨7, some "Jamaica"⟩
    ("1234567".toList) (by decide) (by decide) (by decide) (by decide) (by decide) (by decide)

/-- Unwrapping the catch: `formatPhoneNumber` succeeds exactly when the inner
body succeeds, with the same value. -/
theorem formatPhoneNumber_ok_iff (raw : List Char) (r : FormatOk) :
    formatPhoneNumber raw = .ok r ↔ formatInner raw = .ok r := by
  unfold formatPhoneNumber
  cases formatInner raw <;> simp [Except.mapError]

/-- Shape of a successful `formatScan`: either the loop matched a code and the
input is returned as-is, or no code matched and the input is returned, with a
`"1"` prepended when its length is exactly 10. -/
theorem formatScan_ok_shape (c1 : List Char) (r : FormatOk) (h : formatScan c1 = .ok r) :
    (∃ code, scanCodes sortedCodes c1 = .okCode code ∧ r = ⟨c1, code⟩) ∨
    (scanCodes sortedCodes c1 = .noCode ∧
      ((c1.length = 10 ∧ r = ⟨'1' :: c1, ['1']⟩) ∨ (c1.length ≠ 10 ∧ r = ⟨c1, []⟩))) := by
  unfold formatScan at h
  cases hscan : scanCodes sortedCodes c1 with
  | badLen code info =>
    rw [hscan] at h
    simp at h
  | okCode code =>
    rw [hscan] at h
    cases hb : (decide (c1.length < 10) || decide (15 < c1.length)) with
    | true => rw [hb, cond_true] at h; simp at h
    | false =>
      rw [hb, cond_false] at h
      exact Or.inl ⟨code, rfl, (Except.ok.injEq _ _).mp h.symm ▸ rfl⟩
  | noCode =>
    rw [hscan] at h
    cases h10 : (c1.length == 10) with
    | true =>
      rw [h10, cond_true] at h
      cases hb : (decide (('1' :: c1).length < 10) || decide (15 < ('1' :: c1).length)) with
      | true => rw [hb, cond_true] at h; simp at h
      | false =>
        rw [hb, cond_false] at h
        have hr : r = ⟨'1' :: c1, ['1']⟩ := by
          cases h
          rfl
        exact Or.inr ⟨rfl, Or.inl ⟨beq_iff_eq.mp h10, hr⟩⟩
    | false =>
      rw [h10, cond_false] at h
      cases hb : (decide (c1.length < 10) || decide (15 < c1.length)) with
      | true => rw [hb, cond_true] at h; simp at h
      | false =>
        rw [hb, cond_false] at h
        have hr : r = ⟨c1, []⟩ := by
          cases h
          rfl
        exact Or.inr ⟨rfl, Or.inr ⟨beq_eq_false_iff_ne.mp h10, hr⟩⟩

/-- A string that starts with `'1'` and has 9 further characters always makes
the country-code loop throw: every code starting with `'1'` demands a total
length of 11. -/
theorem scan_len9_badLen (d : List Char) (h9 : d.length = 9) :
    ∃ code info, scanCodes sortedCodes ('1' :: d) = .badLen code info := by
  have hscan := scanCodes_one_cons d
  have hdrop : ((d.drop 3).length == 7) = false := by
    rw [List.length_drop, h9]
    decide
  have h10 : (d.length == 10) = false := by
    rw [h9]
    decide
  cases h758 : List.isPrefixOf ['7','5','8'] d with
  | true =>
    rw [h758, cond_true, hdrop, cond_false] at hscan
    exact ⟨_, _, hscan⟩
  | false =>
    rw [h758, cond_false] at hscan
    cases h868 : List.isPrefixOf ['8','6','8'] d with
    | true =>
      rw [h868, cond_true, hdrop, cond_false] at hscan
      exact ⟨_, _, hscan⟩
    | false =>
      rw [h868, cond_false] at hscan
      cases h869 : List.isPrefixOf ['8','6','9'] d with
      | true =>
        rw [h869, cond_true, hdrop, cond_false] at hscan
        exact ⟨_, _, hscan⟩
      | false =>
        rw [h869, cond_false] at hscan
        cases h876 : List.isPrefixOf ['8','7','6'] d with
        | true =>
          rw [h876, cond_true, hdrop, cond_false] at hscan
          exact ⟨_, _, hscan⟩
        | false =>
          rw [h876, cond_false, h10, cond_false] at hscan
          exact ⟨_, _, hscan⟩

/-- A list whose `isPrefixOf ['1']` test succeeds starts with `'1'`. -/
theorem starts_one_shape (l : List Char) (h : List.isPrefixOf ['1'] l = true) :
    ∃ d, l = '1' :: d := by
  cases l with
  | nil => simp [List.isPrefixOf] at h
  | cons c rest =>
    simp only [List.isPrefixOf, Bool.and_eq_true] at h
    have hc : '1' = c := beq_iff_eq.mp h.1
    exact ⟨rest, by rw [← hc]⟩

/-- Any canonical string produced by a successful `formatPhoneNumber` run is
returned by `formatScan` unchanged, and never has length exactly 10. -/
theorem formatInner_ok_cleaned (raw : List Char) (r : FormatOk)
    (h : formatInner raw = .ok r) :
    formatScan r.cleaned = .ok r ∧ r.cleaned.length ≠ 10 := by
  unfold formatInner at h
  cases hp : ((cleanPhone raw).length == 10 && !(List.isPrefixOf ['1'] (cleanPhone raw))) with
  | true =>
    rw [hp, cond_true] at h
    have hc0 : (cleanPhone raw).length = 10 :=
      beq_iff_eq.mp (Bool.and_eq_true_iff.mp hp).1
    have hlen11 : ('1' :: cleanPhone raw).length = 11 := by simp [hc0]
    rcases formatScan_ok_shape _ _ h with ⟨code, hscan, hr⟩ | ⟨hscan, hcase⟩
    · subst hr
      exact ⟨h, by simp [hlen11]⟩
    · rcases hcase with ⟨hlen, hr⟩ | ⟨hlen, hr⟩
      · rw [hlen11] at hlen
        exact absurd hlen (by decide)
      · subst hr
        exact ⟨h, by simp [hlen11]⟩
  | false =>
    rw [hp, cond_false] at h
    by_cases hc0 : (cleanPhone raw).length = 10
    · have hstarts : List.isPrefixOf ['1'] (cleanPhone raw) = true := by
        cases hs1 : List.isPrefixOf ['1'] (cleanPhone raw) with
        | true => rfl
        | false =>
          rw [Bool.and_eq_false_iff] at hp
          rcases hp with hp | hp
          · rw [beq_eq_false_iff_ne] at hp
            exact absurd hc0 hp
          · rw [hs1] at hp
            simp at hp
      obtain ⟨d, hd⟩ := starts_one_shape _ hstarts
      have h9 : d.length = 9 := by
        have := hc0
        rw [hd] at this
        simpa using this
      obtain ⟨code, info, hbad⟩ := scan_len9_badLen d h9
      rw [hd] at h
      unfold formatScan at h
      rw [hbad] at h
      simp at h
    · rcases formatScan_ok_shape _ _ h with ⟨code, hscan, hr⟩ | ⟨hscan, hcase⟩
      · subst hr
        exact ⟨h, hc0⟩
      · rcases hcase with ⟨hlen, hr⟩ | ⟨hlen, hr⟩
        · exact absurd hlen hc0
        · subst hr
          exact ⟨h, hc0⟩

/-- C9 counterexample: `formatPhoneNumber` is not idempotent as claimed.
`"++1234567890"` is accepted with canonical `"+1234567890"`, but running the
normalizer on that canonical string fails outright (its cleaning now removes
the leading `+`, leaving a 10-digit string that starts with `"1"` and so
fails the US/Canada length check). -/
theorem c9_not_idempotent :
    formatPhoneNumber ("++1234567890".toList) = .ok ⟨"+1234567890".toList, []⟩ ∧
    formatPhoneNumber ("+1234567890".toList) =
      .error "Invalid phone number format: Invalid number length for 1. Expected 10 digits after country code." :=
  ⟨rfl, rfl⟩

/-- C9 (amended): `formatPhoneNumber` is idempotent on every accepted input
whose canonical form is an all-digit string with no leading zero — re-running
the normalizer on such a canonical returns it unchanged with the same matched
code.  (Canonicals that retain a `+` or a leading zero, which the buggy
cleaning of C3 can produce, are the only exceptions.) -/
theorem c9_idempotent_on_digit_canonicals (raw : List Char) (r : FormatOk)
    (h : formatPhoneNumber raw = .ok r)
    (hdig : r.cleaned.all Char.isDigit = true)
    (h0 : r.cleaned.head? ≠ some '0') :
    formatPhoneNumber r.cleaned = .ok r := by
  have hinner := (formatPhoneNumber_ok_iff raw r).mp h
  obtain ⟨hscanr, hne10⟩ := formatInner_ok_cleaned raw r hinner
  rw [formatPhoneNumber_ok_iff]
  unfold formatInner
  rw [cleanPhone_of_digits _ hdig h0]
  have hcond : (r.cleaned.length == 10 && !(List.isPrefixOf ['1'] r.cleaned)) = false := by
    rw [beq_eq_false_iff_ne.mpr hne10]
    rfl
  rw [hcond, cond_false]
  exact hscanr

/-- Witness for C9 (amended) at input `"9841234567"`, whose canonical
`"19841234567"` is all digits and renormalizes to itself. -/
theorem c9_idempotent_witness :
    formatPhoneNumber ("19841234567".toList) = .ok ⟨"19841234567".toList, ['1']⟩ :=
  c9_idempotent_on_digit_canonicals ("9841234567".toList) ⟨"19841234567".toList, ['1']⟩
    rfl (by decide) (by decide)

/-- One task pushed onto `messageQueue` (`server.js` lines 1003-1008):
`{ chatId, message, mediaData }`. -/
structure SendTask where
  chatId : String
  message : String
  mediaData : Option String
deriving Repr, DecidableEq

/-- Modelled from the spec: state of the single shared `messageQueue`
(`better-queue` instance of `server.js` lines 468-508, whose internals are a
library dependency and not part of this repository).  `arrived` records every
task ever pushed in arrival order, `pending` the tasks not yet started,
`inFlight` the tasks whose transport call is outstanding, `completed` the
finished tasks in completion order. -/
structure QueueState where
  arrived : List SendTask
  pending : List SendTask
  inFlight : List SendTask
  completed : List SendTask
deriving Repr, DecidableEq

/-- Modelled from the spec: the event steps of the shared queue configured
with `concurrent: 1` (`server.js` line 504).  `push` may happen at any time —
including from a second concurrently running campaign, since both campaigns
push onto the same module-level queue (lines 1001-1017) — while `start` pulls
the head of the FIFO only when no transport call is outstanding, and `finish`
settles the outstanding call. -/
inductive QueueStep : QueueState → QueueState → Prop
  | push (t : SendTask) (ar p f d : List SendTask) :
      QueueStep ⟨ar, p, f, d⟩ ⟨ar ++ [t], p ++ [t], f, d⟩
  | start (t : SendTask) (ar p d : List SendTask) :
      QueueStep ⟨ar, t :: p, [], d⟩ ⟨ar, p, [t], d⟩
  | finish (t : SendTask) (ar p d : List SendTask) :
      QueueStep ⟨ar, p, [t], d⟩ ⟨ar, p, [], d ++ [t]⟩

/-- The queue before any task is pushed. -/
def initQueue : QueueState := ⟨[], [], [], []⟩

/-- States the shared queue can actually be in. -/
def QueueReachable (s : QueueState) : Prop :=
  Relation.ReflTransGen QueueStep initQueue s

/-- C2: in every reachable state of the delivery queue, at most one task is in
flight (no two transport calls overlap), and completed tasks followed by the
in-flight task and the still-pending tasks reproduce the arrival order exactly
— i.e. tasks are started and completed in FIFO order of their enqueueing,
whichever campaigns pushed them. -/
theorem c2_fifo_single_worker (s : QueueState) (h : QueueReachable s) :
    s.inFlight.length ≤ 1 ∧
    s.completed ++ s.inFlight ++ s.pending = s.arrived := by
  induction h with
  | refl => exact ⟨by decide, rfl⟩
  | tail hsteps hstep ih =>
    obtain ⟨ihf, ihorder⟩ := ih
    cases hstep with
    | push t ar p f d =>
      refine ⟨ihf, ?_⟩
      show d ++ f ++ (p ++ [t]) = ar ++ [t]
      simp only at ihorder
      rw [← List.append_assoc, ihorder]
    | start t ar p d =>
      refine ⟨by simp, ?_⟩
      show d ++ [t] ++ p = ar
      simp only at ihorder
      simpa using ihorder
    | finish t ar p d =>
      refine ⟨by simp, ?_⟩
      show d ++ [t] ++ [] ++ p = ar
      simp only at ihorder
      simpa using ihorder

/-- Witness for C2: a concrete three-step trace (push, start, finish) of one
task through the queue. -/
theorem c2_fifo_single_worker_witness :
    (⟨[⟨"19841234567@c.us", "Hi Amit!", none⟩], [], [],
      [⟨"19841234567@c.us", "Hi Amit!", none⟩]⟩ : QueueState).inFlight.length ≤ 1 ∧
    (⟨[⟨"19841234567@c.us", "Hi Amit!", none⟩], [], [],
      [⟨"19841234567@c.us", "Hi Amit!", none⟩]⟩ : QueueState).completed ++
      (⟨[⟨"19841234567@c.us", "Hi Amit!", none⟩], [], [],
        [⟨"19841234567@c.us", "Hi Amit!", none⟩]⟩ : QueueState).inFlight ++
      (⟨[⟨"19841234567@c.us", "Hi Amit!", none⟩], [], [],
        [⟨"19841234567@c.us", "Hi Amit!", none⟩]⟩ : QueueState).pending =
    (⟨[⟨"19841234567@c.us", "Hi Amit!", none⟩], [], [],
      [⟨"19841234567@c.us", "Hi Amit!", none⟩]⟩ : QueueState).arrived :=
  c2_fifo_single_worker _
    (Relation.ReflTransGen.tail
      (Relation.ReflTransGen.tail
        (Relation.ReflTransGen.tail Relation.ReflTransGen.refl
          (QueueStep.push ⟨"19841234567@c.us", "Hi Amit!", none⟩ [] [] [] []))
        (QueueStep.start ⟨"19841234567@c.us", "Hi Amit!", none⟩
          [⟨"19841234567@c.us", "Hi Amit!", none⟩] [] []))
      (QueueStep.finish ⟨"19841234567@c.us", "Hi Amit!", none⟩
        [⟨"19841234567@c.us", "Hi Amit!", none⟩] [] []))

/-- `MAX_RECONNECT_ATTEMPTS` (`server.js` line 465). -/
def MAX_RECONNECT_ATTEMPTS : Nat := 5

/-- The module-level WhatsApp client flags (`server.js` lines 462-464):
`qrCode`, `isClientReady`, `reconnectAttempts`. -/
structure ClientState where
  isClientReady : Bool
  qrCode : Option String
  reconnectAttempts : Nat
deriving Repr, DecidableEq

/-- The `client.on("disconnected")` handler (`server.js` lines 581-596):
clear the ready flag; if fewer than `MAX_RECONNECT_ATTEMPTS` attempts were
made, increment the counter FIRST and then schedule `client.initialize()`
after `5000 * reconnectAttempts` ms — i.e. a LINEAR delay in the incremented
attempt count.  Returns the new state and the scheduled delay, if any. -/
def onDisconnected (s : ClientState) : ClientState × Option Nat :=
  if s.reconnectAttempts < MAX_RECONNECT_ATTEMPTS then
    (⟨false, s.qrCode, s.reconnectAttempts + 1⟩, some (5000 * (s.reconnectAttempts + 1)))
  else
    (⟨false, s.qrCode, s.reconnectAttempts⟩, none)

/-- The `client.on("auth_failure")` handler (`server.js` lines 564-579):
clear the ready flag; if fewer than `MAX_RECONNECT_ATTEMPTS` attempts were
made, schedule `client.initialize()` after `5000 * Math.pow(2, reconnectAttempts)`
ms (computed BEFORE the counter is incremented) — an exponential delay. -/
def onAuthFailure (s : ClientState) : ClientState × Option Nat :=
  if s.reconnectAttempts < MAX_RECONNECT_ATTEMPTS then
    (⟨false, s.qrCode, s.reconnectAttempts + 1⟩, some (5000 * 2 ^ s.reconnectAttempts))
  else
    (⟨false, s.qrCode, s.reconnectAttempts⟩, none)

/-- The `client.on("ready")` handler (`server.js` lines 552-557): set the
ready flag, clear the QR code, reset the attempt counter. -/
def onReady (s : ClientState) : ClientState :=
  ⟨true, none, 0⟩

/-- The delays scheduled by `n` consecutive `disconnected` events. -/
def disconnectDelays : Nat → ClientState → List (Option Nat)
  | 0, _ => []
  | n + 1, s => (onDisconnected s).2 :: disconnectDelays n (onDisconnected s).1

/-- C5 counterexample: the `disconnected` handler's backoff is NOT
exponential.  At attempt count 2 it schedules a 15000 ms delay, which is
neither `5000 * 2 ^ 2` (the claimed base-times-two-to-the-attempt value) nor
`5000 * 2 ^ 3`. -/
theorem c5_backoff_not_exponential :
    (onDisconnected ⟨true, none, 2⟩).2 = some 15000 ∧
    15000 ≠ 5000 * 2 ^ 2 ∧ 15000 ≠ 5000 * 2 ^ 3 := by decide

/-- C5 (amended): on an unexpected disconnect the session auto-retries with a
LINEAR delay of `5000 * (attempt + 1)` ms (while the `auth_failure` handler
uses the exponential `5000 * 2 ^ attempt`); both stop after 5 attempts.
Seven consecutive disconnects from a fresh counter schedule exactly the
delays 5000, 10000, 15000, 20000, 25000 and then nothing, and once the
counter has reached 5 a disconnect schedules no retry and leaves the client
not ready. -/
theorem c5_backoff_linear_capped :
    disconnectDelays 7 ⟨true, none, 0⟩ =
      [some 5000, some 10000, some 15000, some 20000, some 25000, none, none] ∧
    (∀ s : ClientState, s.reconnectAttempts < MAX_RECONNECT_ATTEMPTS →
      (onDisconnected s).2 = some (5000 * (s.reconnectAttempts + 1)) ∧
      (onAuthFailure s).2 = some (5000 * 2 ^ s.reconnectAttempts)) ∧
    (∀ s : ClientState, MAX_RECONNECT_ATTEMPTS ≤ s.reconnectAttempts →
      (onDisconnected s).2 = none ∧ (onDisconnected s).1.isClientReady = false) := by
  refine ⟨by decide, ?_, ?_⟩
  · intro s hlt
    rw [onDisconnected, onAuthFailure, if_pos hlt, if_pos hlt]
    exact ⟨rfl, rfl⟩
  · intro s hge
    have hnot : ¬ s.reconnectAttempts < MAX_RECONNECT_ATTEMPTS := Nat.not_lt.mpr hge
    rw [onDisconnected, if_neg hnot]
    exact ⟨rfl, rfl⟩

/-- Witness for C5 (amended) at attempt counts 3 (retry scheduled, linear
delay) and 5 (no retry, stays disconnected). -/
theorem c5_backoff_linear_capped_witness :
    ((onDisconnected ⟨true, none, 3⟩).2 = some (5000 * (3 + 1)) ∧
      (onAuthFailure ⟨true, none, 3⟩).2 = some (5000 * 2 ^ 3)) ∧
    ((onDisconnected ⟨false, none, 5⟩).2 = none ∧
      (onDisconnected ⟨false, none, 5⟩).1.isClientReady = false) :=
  ⟨c5_backoff_linear_capped.2.1 ⟨true, none, 3⟩ (by decide),
   c5_backoff_linear_capped.2.2 ⟨false, none, 5⟩ (by decide)⟩

/-- The `statistics` object of a campaign response (`server.js` lines
1058-1065).  `successRate` is the preformatted percentage string; it is
carried opaquely here. -/
structure Statistics where
  total : Nat
  successful : Nat
  failed : Nat
  successRate : String
deriving Repr, DecidableEq

/-- One element of the `successful` array written by `logCampaign`
(`messageLogger.js` lines 25-31).  Note the sent text is stored under the
key `actualMessage` — there is no `message` key. -/
structure SuccessfulEntry where
  name : String
  phoneNumber : String
  formattedNumber : String
  actualMessage : String
  timestamp : String
deriving Repr, DecidableEq

/-- One element of the `failed` array written by `logCampaign`
(`messageLogger.js` lines 32-38).  The failure text is stored under the key
`error` — again there is no `message` key. -/
structure FailedEntry where
  name : String
  phoneNumber : String
  error : String
  timestamp : String
deriving Repr, DecidableEq

/-- The `logEntry` object written per campaign (`messageLogger.js` lines
21-40), which is also exactly what the sentinel-splitting readers parse back. -/
structure CampaignRecord where
  campaignName : String
  timestamp : String
  messageTemplate : String
  successful : List SuccessfulEntry
  failed : List FailedEntry
  statistics : Statistics
deriving Repr, DecidableEq

/-- `logCampaign`'s append (`messageLogger.js` lines 42-43): the log file is
modelled as the list of records in file order; appending writes
`JSON.stringify(logEntry)` plus the `---END_ENTRY---` sentinel, and the JSON
round-trip through the readers is modelled as the identity. -/
def logCampaign (log : List CampaignRecord) (entry : CampaignRecord) : List CampaignRecord :=
  log ++ [entry]

/-- `getCampaignDetails` (`messageLogger.js` lines 92-119): scan the parsed
entries in file order and return the first whose `timestamp` strictly equals
the argument; throw `Campaign not found` when the scan ends without a match. -/
def getCampaignDetails : List CampaignRecord → String → Except String CampaignRecord
  | [], _ => .error "Campaign not found"
  | c :: cs, ts => bif c.timestamp == ts then .ok c else getCampaignDetails cs ts

/-- Appending a record whose timestamp is fresh and looking it up by that
timestamp returns exactly the appended record. -/
theorem getCampaignDetails_append (log : List CampaignRecord) (r : CampaignRecord)
    (hfresh : ∀ c ∈ log, c.timestamp ≠ r.timestamp) :
    getCampaignDetails (log ++ [r]) r.timestamp = .ok r := by
  induction log with
  | nil =>
    simp [getCampaignDetails]
  | cons c cs ih =>
    have hne : (c.timestamp == r.timestamp) = false :=
      beq_eq_false_iff_ne.mpr (hfresh c (by simp))
    show (bif c.timestamp == r.timestamp then _ else _) = _
    rw [hne, cond_false]
    exact ih (fun x hx => hfresh x (by simp [hx]))

/-- Looking up a timestamp that no record carries fails with
`Campaign not found`. -/
theorem getCampaignDetails_absent (log : List CampaignRecord) (ts : String)
    (habsent : ∀ c ∈ log, c.timestamp ≠ ts) :
    getCampaignDetails log ts = .error "Campaign not found" := by
  induction log with
  | nil => rfl
  | cons c cs ih =>
    have hne : (c.timestamp == ts) = false :=
      beq_eq_false_iff_ne.mpr (habsent c (by simp))
    show (bif c.timestamp == ts then _ else _) = _
    rw [hne, cond_false]
    exact ih (fun x hx => habsent x (by simp [hx]))

/-- C7: the campaign-log round trip.  On a log whose timestamps are unique
(the data model's stated key invariant), `append` followed by
`getByTimestamp` of the appended record's timestamp returns the record
deep-equal, and `getByTimestamp` of a timestamp held by no record fails with
the `Campaign not found` error. -/
theorem c7_roundtrip_and_notfound (log : List CampaignRecord) (r : CampaignRecord)
    (ts : String)
    (hfresh : ∀ c ∈ log, c.timestamp ≠ r.timestamp)
    (habsent : ∀ c ∈ log, c.timestamp ≠ ts) :
    getCampaignDetails (logCampaign log r) r.timestamp = .ok r ∧
    getCampaignDetails log ts = .error "Campaign not found" :=
  ⟨getCampaignDetails_append log r hfresh, getCampaignDetails_absent log ts habsent⟩

/-- Witness for C7: one record appended to the empty log is found again; a
lookup in the empty log fails. -/
theorem c7_roundtrip_and_notfound_witness :
    getCampaignDetails
      (logCampaign []
        ⟨"Promo", "2025-01-01T00:00:00.000Z", "Hi {name}!", [], [], ⟨0, 0, 0, "0%"⟩⟩)
      "2025-01-01T00:00:00.000Z" =
      .ok ⟨"Promo", "2025-01-01T00:00:00.000Z", "Hi {name}!", [], [], ⟨0, 0, 0, "0%"⟩⟩ ∧
    getCampaignDetails [] "2025-01-02T00:00:00.000Z" = .error "Campaign not found" :=
  c7_roundtrip_and_notfound []
    ⟨"Promo", "2025-01-01T00:00:00.000Z", "Hi {name}!", [], [], ⟨0, 0, 0, "0%"⟩⟩
    "2025-01-02T00:00:00.000Z" (by simp) (by simp)

/-- The projection kept by `getCampaigns` (`messageLogger.js` lines 69-74):
the full `successful`/`failed` arrays are dropped. -/
structure CampaignSummary where
  campaignName : String
  timestamp : String
  statistics : Statistics
  messageTemplate : String
deriving Repr, DecidableEq

/-- The summary pushed per parsed entry (`messageLogger.js` lines 69-74). -/
def campaignSummary (c : CampaignRecord) : CampaignSummary :=
  ⟨c.campaignName, c.timestamp, c.statistics, c.messageTemplate⟩

/-- `getCampaigns(page = 1, limit = 10000)` (`messageLogger.js` lines 54-90):
the two parameters are declared but never read; every parsed entry is
summarised, the array is reversed, and `total` is its length. -/
def getCampaigns (page limit : Nat) (log : List CampaignRecord) :
    List CampaignSummary × Nat :=
  ((log.map campaignSummary).reverse, (log.map campaignSummary).length)

/-- C10: `getCampaigns` ignores `page` and `limit` entirely — any two calls
agree — and it returns every record of the log as a summary in reverse append
order, with `total` the full record count. -/
theorem c10_pagination_ignored (p1 l1 p2 l2 : Nat) (log : List CampaignRecord) :
    getCampaigns p1 l1 log = getCampaigns p2 l2 log ∧
    (getCampaigns p1 l1 log).1 = (log.map campaignSummary).reverse ∧
    (getCampaigns p1 l1 log).2 = log.length :=
  ⟨rfl, rfl, by simp [getCampaigns]⟩

/-- JavaScript `toLowerCase()` on a string, character by character. -/
def lowerStr (s : String) : List Char :=
  s.toList.map Char.toLower

/-- JavaScript `String.prototype.includes`: `needle` occurs as a contiguous
substring of `hay`. -/
def listContains (hay needle : List Char) : Bool :=
  match hay with
  | [] => needle.isEmpty
  | _ :: t => needle.isPrefixOf hay || listContains t needle

/-- `searchCampaigns` reads `m.message` on successful entries
(`messageLogger.js` line 145), but the schema written by `logCampaign` has no
such key (the text lives under `actualMessage`), so the read yields
JavaScript `undefined`. -/
def successfulMessageField (_ : SuccessfulEntry) : Option String := none

/-- `searchCampaigns` reads `m.message` on failed entries (`messageLogger.js`
line 151), but failed entries store their text under `error`, so this read
also yields `undefined`. -/
def failedMessageField (_ : FailedEntry) : Option String := none

/-- A thrown JavaScript runtime error. -/
inductive JsError where
  | typeError : JsError
deriving Repr, DecidableEq

/-- The per-successful-entry predicate of `messageLogger.js` lines 141-146:
case-insensitive match on `name`, plain match on `phoneNumber`, then
`m.message.toLowerCase()` — which throws a `TypeError` because `m.message` is
`undefined`.  The short-circuiting `||` reaches the throwing read only when
the first two tests fail. -/
def successfulMatches (q : List Char) (m : SuccessfulEntry) : Except JsError Bool :=
  bif listContains (lowerStr m.name) q then .ok true
  else bif listContains m.phoneNumber.toList q then .ok true
  else match successfulMessageField m with
    | some msg => .ok (listContains (lowerStr msg) q)
    | none => .error .typeError

/-- The per-failed-entry predicate of `messageLogger.js` lines 147-152,
analogous to `successfulMatches`. -/
def failedMatches (q : List Char) (m : FailedEntry) : Except JsError Bool :=
  bif listContains (lowerStr m.name) q then .ok true
  else bif listContains m.phoneNumber.toList q then .ok true
  else match failedMessageField m with
    | some msg => .ok (listContains (lowerStr msg) q)
    | none => .error .typeError

/-- `Array.prototype.some` with a callback that can throw: stops at the first
`true`, propagates the first thrown error. -/
def someExcept {α : Type} (f : α → Except JsError Bool) : List α → Except JsError Bool
  | [] => .ok false
  | x :: xs =>
    match f x with
    | .error e => .error e
    | .ok true => .ok true
    | .ok false => someExcept f xs

/-- The per-campaign test of `messageLogger.js` lines 138-153: campaign name,
then template, then the two recipient lists, all short-circuited by `||`. -/
def campaignMatches (q : List Char) (c : CampaignRecord) : Except JsError Bool :=
  bif listContains (lowerStr c.campaignName) q then .ok true
  else bif listContains (lowerStr c.messageTemplate) q then .ok true
  else match someExcept (successfulMatches q) c.successful with
    | .error e => .error e
    | .ok true => .ok true
    | .ok false => someExcept (failedMatches q) c.failed

/-- The scan loop of `searchCampaigns` (`messageLogger.js` lines 132-161):
matched campaigns are pushed in file order; a thrown error aborts the loop. -/
def searchLoop (q : List Char) : List CampaignRecord → Except JsError (List CampaignRecord)
  | [] => .ok []
  | c :: cs =>
    match campaignMatches q c with
    | .error e => .error e
    | .ok true => (searchLoop q cs).map (fun res => c :: res)
    | .ok false => searchLoop q cs

/-- `searchCampaigns(query)` (`messageLogger.js` lines 121-168): lowercase the
query once, scan every entry, and — per the `catch` of lines 164-167 — return
`[]` if anything throws. -/
def searchCampaigns (query : String) (log : List CampaignRecord) : List CampaignRecord :=
  match searchLoop (lowerStr query) log with
  | .ok res => res
  | .error _ => []

/-- A logged campaign with one successful recipient whose sent message is
`"hello world"`. -/
def c6ExampleCampaign : CampaignRecord :=
  ⟨"Promo", "2025-01-01T00:00:00.000Z", "Hi {name}!",
   [⟨"Amit", "9841234567", "19841234567", "hello world", "2025-01-01T00:00:01.000Z"⟩],
   [], ⟨1, 1, 0, "100.0%"⟩⟩

/-- C6 (evidence of a code bug): a query that matches only a recipient's sent
message text does NOT return the campaign.  The query `"hello"` is a
case-insensitive substring of the recipient's sent message, yet the scan
throws a `TypeError` (reading `message` where the log stores `actualMessage`)
and the catch turns the whole search into `[]`. -/
theorem c6_message_search_broken :
    searchCampaigns "hello" [c6ExampleCampaign] = [] ∧
    searchLoop (lowerStr "hello") [c6ExampleCampaign] = .error .typeError ∧
    (∀ m ∈ c6ExampleCampaign.successful,
      listContains (lowerStr m.actualMessage) (lowerStr "hello") = true) :=
  ⟨rfl, rfl, by decide⟩

/-- One parsed element of the `contacts` array (`server.js` line 920).  Both
fields may be absent in the user-supplied JSON. -/
structure Contact where
  name : Option String
  phoneNumber : Option String
deriving Repr, DecidableEq

/-- JavaScript `String.prototype.trim`: drop whitespace from both ends. -/
def trimList (l : List Char) : List Char :=
  ((l.dropWhile Char.isWhitespace).reverse.dropWhile Char.isWhitespace).reverse

/-- The placeholder matched by the regex of `server.js` lines 989-992: the
literal six characters brace-n-a-m-e-brace. -/
def nameToken : List Char :=
  [Char.ofNat 123, 'n', 'a', 'm', 'e', Char.ofNat 125]

/-- `messageTemplate.replace(/{name}/g, ...)` (`server.js` lines 989-992):
replace every non-overlapping left-to-right occurrence of the placeholder. -/
def replaceName : List Char → List Char → List Char
  | [], _ => []
  | c :: rest, nm =>
    bif nameToken.isPrefixOf (c :: rest) then nm ++ replaceName (rest.drop 5) nm
    else c :: replaceName rest nm
termination_by l _ => l.length
decreasing_by
  · simp [List.length_drop]
    omega
  · simp

/-- A `results` element (`server.js` lines 1019-1028), without the wall-clock
`timestamp` field (a nondeterministic `new Date()` reading). -/
structure ResultEntry where
  contact : Contact
  formattedNumber : String
  personalizedMessage : String
deriving Repr, DecidableEq

/-- An `errors` element (`server.js` lines 965-972, 981-985 and 1039-1043),
without the wall-clock `timestamp` field. -/
structure ErrorEntry where
  contact : Contact
  error : String
deriving Repr, DecidableEq

/-- One iteration of the per-contact loop (`server.js` lines 961-1045):
validate that `name?.trim()` and `phoneNumber?.trim()` are both truthy, then
format the RAW phone number, then render the template and send.  Each failure
becomes an `errors` entry with its specific message (`continue`), and the
outer per-contact catch turns a send failure into a `WhatsApp API Error`
entry.  `send` abstracts the queued transport call of lines 1001-1017 (the
shared media payload does not alter the control flow modelled here). -/
def processContact (send : String → String → Except String Unit)
    (messageTemplate : String) (c : Contact) : Except ErrorEntry ResultEntry :=
  match c.name, c.phoneNumber with
  | some nm, some ph =>
    bif (trimList nm.toList).isEmpty || (trimList ph.toList).isEmpty then
      .error ⟨c, "Missing or invalid name/phone number"⟩
    else
      match formatPhoneNumber ph.toList with
      | .error msg => .error ⟨c, "Invalid phone number: " ++ msg⟩
      | .ok fr =>
        match send (String.mk fr.cleaned ++ "@c.us")
            (String.mk (replaceName messageTemplate.toList (trimList nm.toList))) with
        | .ok _ =>
          .ok ⟨c, String.mk fr.cleaned,
            String.mk (replaceName messageTemplate.toList (trimList nm.toList))⟩
        | .error emsg => .error ⟨c, "WhatsApp API Error: " ++ emsg⟩
  | _, _ => .error ⟨c, "Missing or invalid name/phone number"⟩

/-- The whole `for (const contact of contacts)` loop: every contact lands in
exactly one of the `results` or `errors` arrays, in loop order. -/
def processContacts (send : String → String → Except String Unit)
    (messageTemplate : String) : List Contact → List ResultEntry × List ErrorEntry
  | [] => ([], [])
  | c :: rest =>
    match processContact send messageTemplate c with
    | .ok r =>
      (r :: (processContacts send messageTemplate rest).1,
       (processContacts send messageTemplate rest).2)
    | .error e =>
      ((processContacts send messageTemplate rest).1,
       e :: (processContacts send messageTemplate rest).2)

/-- The response assembled at `server.js` lines 1053-1070: `statistics.total`
is `contacts.length`, `statistics.successful` is `results.length` and
`statistics.failed` is `errors.length` (the floating-point `successRate`
string is not modelled). -/
structure CampaignOutcome where
  total : Nat
  successful : Nat
  failed : Nat
  results : List ResultEntry
  errors : List ErrorEntry
deriving Repr, DecidableEq

/-- The campaign handler core (`server.js` lines 961-1070) for an
already-validated request: run the loop and assemble the statistics. -/
def runCampaign (send : String → String → Except String Unit)
    (messageTemplate : String) (contacts : List Contact) : CampaignOutcome :=
  ⟨contacts.length,
   (processContacts send messageTemplate contacts).1.length,
   (processContacts send messageTemplate contacts).2.length,
   (processContacts send messageTemplate contacts).1,
   (processContacts send messageTemplate contacts).2⟩

/-- The validation/normalization verdict on a single contact — exactly the
two pre-send rejection sites of the loop (`server.js` lines 964-974 and
976-986), with their specific messages. -/
def rejectionReason (c : Contact) : Option String :=
  match c.name, c.phoneNumber with
  | some nm, some ph =>
    bif (trimList nm.toList).isEmpty || (trimList ph.toList).isEmpty then
      some "Missing or invalid name/phone number"
    else
      match formatPhoneNumber ph.toList with
      | .error msg => some ("Invalid phone number: " ++ msg)
      | .ok _ => none
  | _, _ => some "Missing or invalid name/phone number"

/-- A contact rejected by validation or normalization yields exactly the
error entry carrying its rejection reason, whatever the transport does. -/
theorem processContact_of_rejection (send : String → String → Except String Unit)
    (tmpl : String) (c : Contact) (msg : String)
    (hmsg : rejectionReason c = some msg) :
    processContact send tmpl c = .error ⟨c, msg⟩ := by
  obtain ⟨nm, ph⟩ := c
  cases nm with
  | none =>
    cases ph with
    | none =>
      have hm : msg = "Missing or invalid name/phone number" := (Option.some.inj hmsg).symm
      rw [hm]
      rfl
    | some ph =>
      have hm : msg = "Missing or invalid name/phone number" := (Option.some.inj hmsg).symm
      rw [hm]
      rfl
  | some nm =>
    cases ph with
    | none =>
      have hm : msg = "Missing or invalid name/phone number" := (Option.some.inj hmsg).symm
      rw [hm]
      rfl
    | some ph =>
      cases hempty : ((trimList nm.toList).isEmpty || (trimList ph.toList).isEmpty) with
      | true =>
        simp only [rejectionReason, hempty, cond_true] at hmsg
        have hm : msg = "Missing or invalid name/phone number" := (Option.some.inj hmsg).symm
        rw [hm]
        simp only [processContact, hempty, cond_true]
      | false =>
        cases hfmt : formatPhoneNumber ph.toList with
        | error m =>
          simp only [rejectionReason, hempty, cond_false, hfmt] at hmsg
          have hm : msg = "Invalid phone number: " ++ m := (Option.some.inj hmsg).symm
          rw [hm]
          simp only [processContact, hempty, cond_false, hfmt]
        | ok fr =>
          simp only [rejectionReason, hempty, cond_false, hfmt] at hmsg
          exact Option.noConfusion hmsg

/-- A contact passing validation and normalization yields a success entry for
itself when the transport succeeds. -/
theorem processContact_of_accept (send : String → String → Except String Unit)
    (tmpl : String) (c : Contact)
    (hsend : ∀ a b, send a b = .ok ())
    (hnone : rejectionReason c = none) :
    ∃ r : ResultEntry, processContact send tmpl c = .ok r ∧ r.contact = c := by
  obtain ⟨nm, ph⟩ := c
  cases nm with
  | none =>
    cases ph with
    | none => exact Option.noConfusion hnone
    | some ph => exact Option.noConfusion hnone
  | some nm =>
    cases ph with
    | none => exact Option.noConfusion hnone
    | some ph =>
      cases hempty : ((trimList nm.toList).isEmpty || (trimList ph.toList).isEmpty) with
      | true =>
        simp only [rejectionReason, hempty, cond_true] at hnone
        exact Option.noConfusion hnone
      | false =>
        cases hfmt : formatPhoneNumber ph.toList with
        | error m =>
          simp only [rejectionReason, hempty, cond_false, hfmt] at hnone
          exact Option.noConfusion hnone
        | ok fr =>
          refine ⟨⟨⟨some nm, some ph⟩, String.mk fr.cleaned,
            String.mk (replaceName tmpl.toList (trimList nm.toList))⟩, ?_, rfl⟩
          simp only [processContact, hempty, cond_false, hfmt, hsend]

/-- The loop's `errors` array is exactly the rejected contacts with their
reasons, and its `results` array covers exactly the accepted contacts, when
every transport call succeeds. -/
theorem processContacts_partition (send : String → String → Except String Unit)
    (tmpl : String) (cs : List Contact)
    (hsend : ∀ a b, send a b = .ok ()) :
    (processContacts send tmpl cs).2 =
      cs.filterMap (fun c => (rejectionReason c).map (fun e => ErrorEntry.mk c e)) ∧
    (processContacts send tmpl cs).1.map ResultEntry.contact =
      cs.filter (fun c => (rejectionReason c).isNone) := by
  induction cs with
  | nil => exact ⟨rfl, rfl⟩
  | cons c rest ih =>
    obtain ⟨ih2, ih1⟩ := ih
    cases hrej : rejectionReason c with
    | some msg =>
      have hpc := processContact_of_rejection send tmpl c msg hrej
      constructor
      · simp only [processContacts, hpc]
        simp [hrej, ih2]
      · simp only [processContacts, hpc]
        simp [hrej, ih1]
    | none =>
      obtain ⟨r, hpc, hrc⟩ := processContact_of_accept send tmpl c hsend hrej
      constructor
      · simp only [processContacts, hpc]
        simp [hrej, ih2]
      · simp only [processContacts, hpc]
        simp [hrej, ih1, hrc]

/-- Every contact lands in exactly one of the two arrays: the counts add up
to the input size, whatever the transport does. -/
theorem processContacts_length (send : String → String → Except String Unit)
    (tmpl : String) (cs : List Contact) :
    (processContacts send tmpl cs).1.length + (processContacts send tmpl cs).2.length
      = cs.length := by
  induction cs with
  | nil => rfl
  | cons c rest ih =>
    cases hpc : processContact send tmpl c with
    | ok r =>
      simp only [processContacts, hpc, List.length_cons]
      omega
    | error e =>
      simp only [processContacts, hpc, List.length_cons]
      omega

/-- C8: for a campaign over contacts of which some fail validation or
normalization and the rest succeed (all transport calls succeed), the
statistics are `total = N`, `successful + failed = N` with `failed = k`; the
`errors` list contains exactly the rejected contacts, each with its specific
rejection reason, and the `results` list covers exactly the remaining
contacts — failures never cause sibling contacts to be skipped. -/
theorem c8_failures_isolated (send : String → String → Except String Unit)
    (tmpl : String) (cs : List Contact)
    (hsend : ∀ a b, send a b = .ok ()) :
    (runCampaign send tmpl cs).total = cs.length ∧
    (runCampaign send tmpl cs).errors =
      cs.filterMap (fun c => (rejectionReason c).map (fun e => ErrorEntry.mk c e)) ∧
    (runCampaign send tmpl cs).results.map ResultEntry.contact =
      cs.filter (fun c => (rejectionReason c).isNone) ∧
    (runCampaign send tmpl cs).successful + (runCampaign send tmpl cs).failed
      = cs.length ∧
    (runCampaign send tmpl cs).failed =
      (cs.filterMap (fun c => (rejectionReason c).map (fun e => ErrorEntry.mk c e))).length := by
  obtain ⟨h2, h1⟩ := processContacts_partition send tmpl cs hsend
  refine ⟨rfl, h2, h1, processContacts_length send tmpl cs, ?_⟩
  show (processContacts send tmpl cs).2.length = _
  rw [h2]

/-- The transport stub for the C8 witness: every send succeeds. -/
def okSend : String → String → Except String Unit := fun _ _ => .ok ()

/-- The five contacts of the C8 witness: three valid, one with an invalid
phone number, one with no name. -/
def c8Contacts : List Contact :=
  [⟨some "Amit", some "9841234567"⟩,
   ⟨some "Bad", some "123"⟩,
   ⟨none, some "9841234568"⟩,
   ⟨some "Carol", some "9841234569"⟩,
   ⟨some "Dan", some "9841234560"⟩]

/-- Witness for C8 on a batch of 5 contacts of which 2 are rejected. -/
theorem c8_failures_isolated_witness :
    (runCampaign okSend "Hi {name}!" c8Contacts).total = c8Contacts.length ∧
    (runCampaign okSend "Hi {name}!" c8Contacts).errors =
      c8Contacts.filterMap (fun c => (rejectionReason c).map (fun e => ErrorEntry.mk c e)) ∧
    (runCampaign okSend "Hi {name}!" c8Contacts).results.map ResultEntry.contact =
      c8Contacts.filter (fun c => (rejectionReason c).isNone) ∧
    (runCampaign okSend "Hi {name}!" c8Contacts).successful
      + (runCampaign okSend "Hi {name}!" c8Contacts).failed = c8Contacts.length ∧
    (runCampaign okSend "Hi {name}!" c8Contacts).failed =
      (c8Contacts.filterMap
        (fun c => (rejectionReason c).map (fun e => ErrorEntry.mk c e))).length :=
  c8_failures_isolated okSend "Hi {name}!" c8Contacts (fun _ _ => rfl)

end WhatsappBulk
